import Mathlib

/-!
Verification of the NAIP_CNN repository core: the Earth Engine
acquisition/masking module (`src/naip_cnn/acquisitions.py`) and the training
CLI (`src/naip_cnn/cli/train.py`).

The Earth Engine backend is modelled by its documented per-pixel semantics:
an image is a partial function from pixels to integer values (a `none` pixel
is masked), a collection is a list of images, and the `max` reducer takes the
pixel-wise maximum over the unmasked inputs, producing a masked pixel when no
input is unmasked there (in particular the reduction of an empty collection
is fully masked).  `filterDate(start, end)` keeps slices with
`start <= date < end` (the end bound is exclusive in Earth Engine).
-/

namespace NAIPCNN

/-- A pixel location on the fixed analysis grid. -/
abbrev Pixel := Nat × Nat

/-- An Earth Engine image: per-pixel integer values; `none` means masked. -/
structure EEImage where
  pix : Pixel → Option Int

/-- `img.eq(c)`: per-pixel equality test, `1` where equal, `0` where not,
masked where the input is masked. -/
def imgEq (img : EEImage) (c : Int) : EEImage :=
  ⟨fun p => (img.pix p).map (fun v => if v = c then (1 : Int) else 0)⟩

/-- Pixel-wise maximum of two optional values, ignoring masked inputs. -/
def optMax : Option Int → Option Int → Option Int
  | none, b => b
  | some v, none => some v
  | some v, some w => some (max v w)

/-- The `max()` collection reduction: pixel-wise maximum over the unmasked
inputs; a pixel with no unmasked input (in particular every pixel of an
empty collection) comes out masked. -/
def icMax (ic : List EEImage) : EEImage :=
  ⟨fun p => ic.foldr (fun img acc => optMax (img.pix p) acc) none⟩

/-- Whether a mask image keeps a pixel: it must be unmasked and nonzero. -/
def maskKeeps (mask : EEImage) (p : Pixel) : Bool :=
  match mask.pix p with
  | some v => v != 0
  | none => false

/-- `img.updateMask(mask)`: a pixel survives only where the mask is unmasked
and nonzero. -/
def updateMask (img mask : EEImage) : EEImage :=
  ⟨fun p => if maskKeeps mask p then img.pix p else none⟩

/-- `mosaic()`: composites a collection; the last image in the collection
with an unmasked pixel wins. -/
def mosaic (ic : List EEImage) : EEImage :=
  ⟨fun p => ic.reverse.findSome? (fun img => img.pix p)⟩

/-- Modelled from the spec: the fixed process-wide coordinate reference
(`naip_cnn.config.CRS`, whose module is not part of the analysed sources).
Its concrete value is immaterial; both loaders reference this one constant. -/
def CRS : String := "shared-process-wide-crs"

/-- A raster layer after `reproject`: the coordinate reference, the linear
scale passed to `atScale`, and the image data. -/
structure EELayer where
  crs : String
  scale : Nat
  img : EEImage

/-- One time slice of the LCMS change product: its study area property,
its date (ISO string, so lexicographic order is chronological), and its
`Change` band. -/
structure ChangeSlice where
  studyArea : String
  date : String
  change : EEImage

/-- Lexicographic order on character lists; on same-length ISO date strings
this is chronological order. -/
def charListLt : List Char → List Char → Bool
  | [], [] => false
  | [], _ :: _ => true
  | _ :: _, [] => false
  | a :: as, b :: bs => a < b || (a == b && charListLt as bs)

/-- Strict chronological order on ISO date strings. -/
def dateLt (a b : String) : Bool := charListLt a.data b.data

/-- Non-strict chronological order on ISO date strings. -/
def dateLe (a b : String) : Bool := a == b || dateLt a b

/-- The collection query in `Acquisition.mask`: filter to the CONUS study
area, then `filterDate(start, end)` with the end bound exclusive. -/
def filterLCMS (s e : String) (ic : List ChangeSlice) : List ChangeSlice :=
  (ic.filter (fun sl => sl.studyArea == "CONUS")).filter
    (fun sl => dateLe s sl.date && dateLt sl.date e)

/-- A LiDAR acquisition with associated NAIP imagery
(`Acquisition.__init__` stores the three fields unchecked). -/
structure Acquisition where
  name : String
  start_date : String
  end_date : String
deriving DecidableEq

/-- `Acquisition.mask`: map each qualifying change slice to `eq(3)` (fast
loss), reduce with `max`, invert with `eq(0)`, and reproject at scale 30.
The LCMS collection contents are a parameter of the embedding. -/
def Acquisition.mask (acq : Acquisition) (lcms : List ChangeSlice) : EELayer :=
  { crs := CRS
    scale := 30
    img := imgEq
      (icMax ((filterLCMS acq.start_date acq.end_date lcms).map
        (fun sl => imgEq sl.change 3))) 0 }

/-- One NAIP capture: its date and its image. -/
structure NAIPImage where
  date : String
  img : EEImage

/-- The date filter of `load_naip`: `filterDate(start, end)`, end exclusive. -/
def filterNAIPDate (s e : String) (ic : List NAIPImage) : List NAIPImage :=
  ic.filter (fun im => dateLe s im.date && dateLt im.date e)

/-- The mosaicked NAIP composite of `load_naip` before masking: filter by
date, filter by intersection with the acquisition's footprint bounds
(the spatial test against the remote geometry is a predicate parameter),
then mosaic. -/
def naip_composite (acq : Acquisition) (naip : List NAIPImage)
    (inBounds : NAIPImage → Bool) : EEImage :=
  mosaic (((filterNAIPDate acq.start_date acq.end_date naip).filter
    inBounds).map (fun im => im.img))

/-- `Acquisition.load_naip`: the masked NAIP composite reprojected at
scale 1. -/
def Acquisition.load_naip (acq : Acquisition) (naip : List NAIPImage)
    (inBounds : NAIPImage → Bool) (lcms : List ChangeSlice) : EELayer :=
  { crs := CRS
    scale := 1
    img := updateMask (naip_composite acq naip inBounds) (acq.mask lcms).img }

/-- `Acquisition.load_lidar`: the named LiDAR asset (a parameter of the
embedding) masked by the same validity mask and reprojected at scale 30. -/
def Acquisition.load_lidar (acq : Acquisition) (lidar : EEImage)
    (lcms : List ChangeSlice) : EELayer :=
  { crs := CRS
    scale := 30
    img := updateMask lidar (acq.mask lcms).img }

/-- The claim's reading of the mask contract, following the spec's words:
some change-product slice with a date in the closed interval
`[start_date, end_date]` (and in the CONUS study area) classifies the pixel
as fast loss (code 3). -/
def fastLossWithinClosedRange (acq : Acquisition) (lcms : List ChangeSlice)
    (p : Pixel) : Bool :=
  lcms.any (fun sl =>
    (sl.studyArea == "CONUS" &&
      (dateLe acq.start_date sl.date && dateLe sl.date acq.end_date))
    && sl.change.pix p == some 3)

/-- The acquisition registry constants from the bottom of
`acquisitions.py`. -/
def MAL2007 : Acquisition :=
  { name := "MAL2007", start_date := "2007-01-01", end_date := "2009-12-31" }

def MAL2008_CampCreek : Acquisition :=
  { name := "MAL2008_CampCreek", start_date := "2008-01-01", end_date := "2009-12-31" }

def MAL2008_2009_MalheurRiver : Acquisition :=
  { name := "MAL2008_2009_MalheurRiver", start_date := "2008-01-01", end_date := "2009-12-31" }

def MAL2010 : Acquisition :=
  { name := "MAL2010", start_date := "2010-01-01", end_date := "2011-12-31" }

def MAL2014 : Acquisition :=
  { name := "MAL2014", start_date := "2014-01-01", end_date := "2014-12-31" }

def MAL2016_CanyonCreek : Acquisition :=
  { name := "MAL2016_CanyonCreek", start_date := "2016-01-01", end_date := "2016-12-31" }

def MAL2017_Crow : Acquisition :=
  { name := "MAL2017_Crow", start_date := "2016-01-01", end_date := "2017-12-31" }

def MAL2017_JohnDay : Acquisition :=
  { name := "MAL2017_JohnDay", start_date := "2016-01-01", end_date := "2017-12-31" }

def MAL2018_Aldrich_UpperBear : Acquisition :=
  { name := "MAL2018_Aldrich_UpperBear", start_date := "2018-01-01", end_date := "2020-12-31" }

def MAL2018_Rattlesnake : Acquisition :=
  { name := "MAL2018_Rattlesnake", start_date := "2018-01-01", end_date := "2020-12-31" }

def MAL2019 : Acquisition :=
  { name := "MAL2019", start_date := "2019-01-01", end_date := "2020-12-31" }

def MAL2020_UpperJohnDay : Acquisition :=
  { name := "MAL2020_UpperJohnDay", start_date := "2020-01-01", end_date := "2020-12-31" }

/-- The fixed set of named acquisitions exposed by the module. -/
def registryAcquisitions : List Acquisition :=
  [MAL2007, MAL2008_CampCreek, MAL2008_2009_MalheurRiver, MAL2010, MAL2014,
   MAL2016_CanyonCreek, MAL2017_Crow, MAL2017_JohnDay,
   MAL2018_Aldrich_UpperBear, MAL2018_Rattlesnake, MAL2019,
   MAL2020_UpperJohnDay]


/-!
Training CLI (`src/naip_cnn/cli/train.py`).  Validation losses are modelled
as rationals; the per-epoch loss history is the list of monitored values that
the checkpoint callback observes, epoch 1 first.
-/

/-- The `save_best_only` test of the checkpoint callback: the current
monitored value must be strictly better than the best seen so far
(`none` is the initial "infinite" best). -/
def improves : Option ℚ → ℚ → Bool
  | none, _ => true
  | some b, l => decide (l < b)

/-- The checkpoint files written during fitting: each strictly-improving
epoch writes a file named by its (1-based, zero-padded) epoch ordinal; the
pair is (epoch ordinal, validation loss recorded at that epoch). -/
def savedCheckpointsAux (best : Option ℚ) (epoch : Nat) :
    List ℚ → List (Nat × ℚ)
  | [] => []
  | l :: rest =>
    if improves best l then
      (epoch, l) :: savedCheckpointsAux (some l) (epoch + 1) rest
    else
      savedCheckpointsAux best (epoch + 1) rest

/-- The checkpoints on disk after a fit over the given loss history. -/
def savedCheckpoints (losses : List ℚ) : List (Nat × ℚ) :=
  savedCheckpointsAux none 1 losses

/-- Modelled from the spec: `ModelRun.load_best_checkpoint`
(`naip_cnn.models`, whose module is not part of the analysed sources) parses
the epoch ordinal out of every checkpoint filename on disk and reloads the
checkpoint with the greatest ordinal, returning it. -/
def bestOrdinalStep (acc : Option (Nat × ℚ)) (c : Nat × ℚ) :
    Option (Nat × ℚ) :=
  match acc with
  | none => some c
  | some a => if a.1 ≤ c.1 then some c else some a

def load_best_checkpoint (ckpts : List (Nat × ℚ)) : Option (Nat × ℚ) :=
  ckpts.foldl bestOrdinalStep none

/-- The result record returned by `train_model`.  `model_run` stands for the
live model: the checkpoint (epoch ordinal, recorded validation loss) whose
weights were restored into it. -/
structure TrainingResult where
  model_run : Option (Nat × ℚ)
  best_epoch : Option Nat
  stopped_epoch : Nat
  interrupted : Bool

/-- How the `model.fit` call ended: it either returned normally (having
converged or early-stopped) or was interrupted by the user at some epoch. -/
inductive FitOutcome where
  | completed (lastEpoch : Nat)
  | interruptedAt (lastEpoch : Nat)

/-- The fit call itself: a manual interruption surfaces as an exception
carrying the last epoch the tracker saw. -/
def fitRun : FitOutcome → Except Nat Nat
  | .completed n => .ok n
  | .interruptedAt k => .error k

/-- `train_model`: run the fit, catching a manual interruption; in either
case restore the best checkpoint and report the tracker's last epoch
(modelled from the spec for `EpochTracker`, whose module is not part of the
analysed sources: it records the index of the last epoch actually
executed). -/
def train_model (losses : List ℚ) (outcome : FitOutcome) : TrainingResult :=
  let ckpt := load_best_checkpoint (savedCheckpoints losses)
  match fitRun outcome with
  | .ok n =>
    { model_run := ckpt, best_epoch := ckpt.map (fun c => c.1)
      stopped_epoch := n, interrupted := false }
  | .error k =>
    { model_run := ckpt, best_epoch := ckpt.map (fun c => c.1)
      stopped_epoch := k, interrupted := true }

/-- The observable steps of the `train` command after fitting. -/
inductive Action where
  | logCode
  | logModel
  | evaluate
  | publishSummary
  | alert
  | finishRun
deriving DecidableEq

/-- The tail of the `train` command: log code and model, evaluate, publish
the summary, alert only when the run was not interrupted, then finish. -/
def trainSteps (tr : TrainingResult) : List Action :=
  [Action.logCode, Action.logModel, Action.evaluate, Action.publishSummary]
    ++ (if tr.interrupted then [] else [Action.alert]) ++ [Action.finishRun]

/-!
Evaluation.  A validation sample is an (input pixels, label pixels) pair;
a batch is a list of samples.  `sklearn.metrics.r2_score` is modelled by its
documented behavior: inconsistent sample counts raise, fewer than two
samples give NaN (`none`), a zero total sum of squares gives 1 when the
residual is also zero and 0 otherwise, and otherwise the score is
`1 - ssRes / ssTot`.
-/

/-- A validation sample: input pixel values and label pixel values. -/
abbrev Sample := List ℚ × List ℚ

/-- A batch of validation samples. -/
abbrev Batch := List Sample

/-- `numpy.ndarray.ravel` over a list of per-sample arrays. -/
def ravel (xs : List (List ℚ)) : List ℚ := xs.flatten

/-- The concatenated true labels of `evaluate_model`:
`np.concatenate([data[1] for data in val.as_numpy_iterator()])`. -/
def y_true_samples (val : List Batch) : List (List ℚ) :=
  (val.map (fun b => b.map (fun s => s.2))).flatten

/-- The predictions of `evaluate_model`: the model (a function from input
pixels to predicted label pixels) applied across every batch. -/
def y_pred_samples (predict : List ℚ → List ℚ) (val : List Batch) :
    List (List ℚ) :=
  (val.map (fun b => b.map (fun s => predict s.1))).flatten

/-- The mean of the true values, as `r2_score` computes it. -/
def meanOf (y : List ℚ) : ℚ := y.sum / (y.length : ℚ)

/-- `r2_score`'s numerator: the residual sum of squares. -/
def ssRes (y_true y_pred : List ℚ) : ℚ :=
  (List.zipWith (fun a b => (a - b) ^ 2) y_true y_pred).sum

/-- `r2_score`'s denominator: the total sum of squares. -/
def ssTot (y_true : List ℚ) : ℚ :=
  (y_true.map (fun a => (a - meanOf y_true) ^ 2)).sum

/-- `sklearn.metrics.r2_score` on flat arrays (see the section comment). -/
def r2_score (y_true y_pred : List ℚ) : Except String (Option ℚ) :=
  if y_true.length ≠ y_pred.length then
    .error "Found input variables with inconsistent numbers of samples"
  else if y_true.length < 2 then
    .ok none
  else if ssTot y_true = 0 then
    if ssRes y_true y_pred = 0 then .ok (some 1) else .ok (some 0)
  else
    .ok (some (1 - ssRes y_true y_pred / ssTot y_true))

/-- The R² computation inside `evaluate_model`:
`r2_score(y_true.ravel(), y_pred.ravel())`. -/
def evaluate_r2 (predict : List ℚ → List ℚ) (val : List Batch) :
    Except String (Option ℚ) :=
  r2_score (ravel (y_true_samples val)) (ravel (y_pred_samples predict val))

/-- A value stored in the run summary. -/
inductive SummaryVal where
  | epoch (o : Option Nat)
  | score (o : Option ℚ)
  | num (x : ℚ)
  | flag (b : Bool)
deriving DecidableEq

/-- `evaluate_model`: assemble the metrics dict (insertion order preserved)
and return it with every key re-written under the `final/` namespace.  A
`r2_score` failure propagates as the Python exception would. -/
def evaluate_model (tr : TrainingResult) (predict : List ℚ → List ℚ)
    (val : List Batch) (metricsNames : List String) (metricVals : List ℚ) :
    Except String (List (String × SummaryVal)) := do
  let r2 ← evaluate_r2 predict val
  let metrics : List (String × SummaryVal) :=
    [("best_epoch", SummaryVal.epoch tr.best_epoch),
     ("stopped_epoch", SummaryVal.epoch (some tr.stopped_epoch)),
     ("r2_score", SummaryVal.score r2)]
    ++ (metricsNames.zip metricVals).map (fun mv => (mv.1, SummaryVal.num mv.2))
  pure (metrics.map (fun kv => ("final/" ++ kv.1, kv.2)))

/-- The summary the `train` command publishes to the tracking service:
`evaluate_model`'s dict with the `interrupted` flag added afterwards
(`summary["interrupted"] = training_result.interrupted`). -/
def train_published_summary (tr : TrainingResult)
    (predict : List ℚ → List ℚ) (val : List Batch)
    (metricsNames : List String) (metricVals : List ℚ) :
    Except String (List (String × SummaryVal)) :=
  (evaluate_model tr predict val metricsNames metricVals).map
    (fun s => s ++ [("interrupted", SummaryVal.flag tr.interrupted)])

/-!
The dataset pipelines of `load_data`.  An op acts on the stream of samples;
`shuffle` applies the permutation the random state dictates, `augment` maps
the augmenter over every sample, `cache` is an order-preserving identity.
Batching groups into fixed-size chunks dropping the remainder
(`drop_remainder=True`); `prefetch` is an order-preserving identity on
batches.
-/

/-- A dataset transformation prior to batching. -/
inductive DatasetOp where
  | cache
  | shuffle (buffer : Nat)
  | augment

/-- Apply one op, given the random state's permutation and the augmenter. -/
def applyOp (rand : List Sample → List Sample) (aug : Sample → Sample) :
    DatasetOp → List Sample → List Sample
  | .cache, d => d
  | .shuffle _, d => rand d
  | .augment, d => d.map aug

/-- Apply a pipeline of ops in order. -/
def runOps (rand : List Sample → List Sample) (aug : Sample → Sample)
    (ops : List DatasetOp) (d : List Sample) : List Sample :=
  ops.foldl (fun acc op => applyOp rand aug op acc) d

/-- Batching with `drop_remainder=True`: full chunks of size `n` only. -/
def chunks (n : Nat) (l : List Sample) : List Batch :=
  if _h : 0 < n ∧ n ≤ l.length then
    l.take n :: chunks n (l.drop n)
  else
    []
termination_by l.length
decreasing_by
  simp only [List.length_drop]
  omega

/-- `prefetch` on the batched dataset: an order-preserving identity. -/
def prefetch (b : List Batch) : List Batch := b

/-- The validation pipeline of `load_data`:
`load_val(...).cache().batch(BATCH_SIZE, drop_remainder=True).prefetch(...)`.
No shuffle and no augmenter appear anywhere in it. -/
def val_pipeline (rand : List Sample → List Sample) (aug : Sample → Sample)
    (batchSize : Nat) (data : List Sample) : List Batch :=
  prefetch (chunks batchSize (runOps rand aug [DatasetOp.cache] data))

/-- The training pipeline of `load_data`: the augmenter is applied by
`load_train`, then `cache`, `shuffle(1000)`, `batch`, `prefetch`. -/
def train_pipeline (rand : List Sample → List Sample) (aug : Sample → Sample)
    (batchSize : Nat) (data : List Sample) : List Batch :=
  prefetch (chunks batchSize
    (runOps rand aug [DatasetOp.augment, DatasetOp.cache,
      DatasetOp.shuffle 1000] data))

end NAIPCNN

namespace NAIPCNN

/-! ## Helper lemmas -/

/-- Pixel-level unfolding of the `max` reduction over a cons. -/
theorem icMax_cons (i : EEImage) (is : List EEImage) (p : Pixel) :
    (icMax (i :: is)).pix p = optMax (i.pix p) ((icMax is).pix p) := rfl

/-- Over a nonempty slice list whose `Change` band is unmasked at `p`, the
mapped-`eq(3)`-then-`max` stack at `p` is `some 1` when some slice shows
fast loss there and `some 0` when none does. -/
theorem icMax_eq3_cases (p : Pixel) :
    ∀ l : List ChangeSlice, l ≠ [] →
      (∀ sl ∈ l, (sl.change.pix p).isSome = true) →
      ((icMax (l.map (fun sl => imgEq sl.change 3))).pix p = some 1 ∧
        ∃ sl ∈ l, sl.change.pix p = some 3) ∨
      ((icMax (l.map (fun sl => imgEq sl.change 3))).pix p = some 0 ∧
        ∀ sl ∈ l, sl.change.pix p ≠ some 3) := by
  intro l
  induction l with
  | nil => intro h; exact absurd rfl h
  | cons sl rest ih =>
    intro _ hsome
    obtain ⟨v, hv⟩ :=
      Option.isSome_iff_exists.mp (hsome sl (List.mem_cons_self sl rest))
    have hpix : (imgEq sl.change 3).pix p
        = some (if v = 3 then (1 : Int) else 0) := by
      simp [imgEq, hv]
    cases rest with
    | nil =>
      by_cases h3 : v = 3
      · left
        refine ⟨?_, sl, List.mem_cons_self sl [], by rw [hv, h3]⟩
        rw [List.map_cons, List.map_nil, icMax_cons, hpix]
        simp [icMax, optMax, h3]
      · right
        refine ⟨?_, ?_⟩
        · rw [List.map_cons, List.map_nil, icMax_cons, hpix]
          simp [icMax, optMax, h3]
        · intro sl' hm
          rcases List.mem_singleton.mp hm with rfl
          rw [hv]
          intro hc
          exact h3 (Option.some.inj hc)
    | cons sl2 rest2 =>
      have hsome' : ∀ s ∈ sl2 :: rest2, (s.change.pix p).isSome = true :=
        fun s hs => hsome s (List.mem_cons_of_mem _ hs)
      have hunf : (icMax ((sl :: sl2 :: rest2).map
            (fun s => imgEq s.change 3))).pix p
          = optMax (some (if v = 3 then (1 : Int) else 0))
            ((icMax ((sl2 :: rest2).map (fun s => imgEq s.change 3))).pix p) := by
        rw [List.map_cons, icMax_cons, hpix]
      rcases ih (by simp) hsome' with ⟨hmax, sl', hmem, h3'⟩ | ⟨hmax, hall⟩
      · left
        constructor
        · rw [hunf, hmax]
          by_cases h3 : v = 3 <;> simp [optMax, h3]
        · exact ⟨sl', List.mem_cons_of_mem _ hmem, h3'⟩
      · by_cases h3 : v = 3
        · left
          refine ⟨?_, sl, List.mem_cons_self sl _, by rw [hv, h3]⟩
          rw [hunf, hmax]
          simp [optMax, h3]
        · right
          refine ⟨?_, ?_⟩
          · rw [hunf, hmax]
            simp [optMax, h3]
          · intro sl' hm
            rcases List.mem_cons.mp hm with rfl | hm'
            · rw [hv]; intro hc; exact h3 (Option.some.inj hc)
            · exact hall sl' hm'

/-- The mask image at a pixel is the inverted (`eq(0)`) max stack. -/
theorem mask_pix (acq : Acquisition) (lcms : List ChangeSlice) (p : Pixel) :
    (acq.mask lcms).img.pix p
      = ((icMax ((filterLCMS acq.start_date acq.end_date lcms).map
          (fun sl => imgEq sl.change 3))).pix p).map
            (fun v => if v = 0 then (1 : Int) else 0) := rfl

end NAIPCNN

namespace NAIPCNN

/-! ## C1 -/

/-- C1: the claim requires the mask to be all-valid when the acquisition's
date window selects zero change-product slices; the code instead produces a
fully masked (nowhere-valid) mask there, because the `max` reduction of an
empty collection is fully masked.  This theorem evaluates the code at such a
failing input: an acquisition with `start_date == end_date`, with an LCMS
slice present on that very date (excluded by the filter's exclusive end
bound): every pixel of the resulting mask is masked, hence no pixel is
valid. -/
theorem C1_empty_window_mask_nowhere_valid :
    ∀ p : Pixel,
      ((Acquisition.mk "MAL_TEST" "2017-06-01" "2017-06-01").mask
        [⟨"CONUS", "2017-06-01", ⟨fun _ => some 0⟩⟩]).img.pix p = none ∧
      maskKeeps (((Acquisition.mk "MAL_TEST" "2017-06-01" "2017-06-01").mask
        [⟨"CONUS", "2017-06-01", ⟨fun _ => some 0⟩⟩]).img) p = false := by
  intro p
  exact ⟨rfl, rfl⟩

/-! ## C2 -/

/-- C2 counterexample: for the registry acquisition `MAL2007` and an LCMS
collection with no qualifying slice, the claimed equivalence "mask true at
the pixel iff no slice within the date range shows fast loss" fails: no
slice shows fast loss, yet the mask (the empty `max` reduction, inverted) is
masked rather than true at every pixel. -/
theorem C2_mask_iff_counterexample :
    maskKeeps ((MAL2007.mask []).img) (0, 0)
      ≠ !(fastLossWithinClosedRange MAL2007 [] (0, 0)) := by
  decide

/-- C2 (amended): whenever at least one change-product slice passes the
code's date filter (start inclusive, end exclusive) and every passing slice
is unmasked at the pixel, the mask is valid at the pixel iff no passing
slice classifies the pixel as fast loss (code 3). -/
theorem C2_mask_valid_iff_no_fast_loss (acq : Acquisition)
    (lcms : List ChangeSlice) (p : Pixel)
    (h1 : filterLCMS acq.start_date acq.end_date lcms ≠ [])
    (h2 : ∀ sl ∈ filterLCMS acq.start_date acq.end_date lcms,
      (sl.change.pix p).isSome = true) :
    maskKeeps (acq.mask lcms).img p = true ↔
      ∀ sl ∈ filterLCMS acq.start_date acq.end_date lcms,
        sl.change.pix p ≠ some 3 := by
  rcases icMax_eq3_cases p _ h1 h2 with ⟨hmax, sl, hm, h3⟩ | ⟨hmax, hall⟩
  · have hk : maskKeeps (acq.mask lcms).img p = false := by
      simp [maskKeeps, mask_pix, hmax]
    rw [hk]
    constructor
    · intro hc; exact absurd hc (by simp)
    · intro hall'; exact absurd h3 (hall' sl hm)
  · have hk : maskKeeps (acq.mask lcms).img p = true := by
      simp [maskKeeps, mask_pix, hmax]
    rw [hk]
    exact iff_of_true rfl hall

/-- C2 witness: a concrete acquisition with one qualifying, disturbance-free
slice; the amended theorem yields a valid pixel. -/
theorem C2_mask_valid_iff_no_fast_loss_witness :
    maskKeeps (((Acquisition.mk "W" "2017-01-01" "2018-01-01").mask
      [⟨"CONUS", "2017-06-01", ⟨fun _ => some 0⟩⟩]).img) (0, 0) = true :=
  (C2_mask_valid_iff_no_fast_loss
    (Acquisition.mk "W" "2017-01-01" "2018-01-01")
    [⟨"CONUS", "2017-06-01", ⟨fun _ => some 0⟩⟩] (0, 0)
    (by
      rw [show filterLCMS "2017-01-01" "2018-01-01"
          [⟨"CONUS", "2017-06-01", ⟨fun _ => some 0⟩⟩]
          = [⟨"CONUS", "2017-06-01", ⟨fun _ => some 0⟩⟩] from rfl]
      exact List.cons_ne_nil _ _)
    (by decide)).mpr (by decide)

end NAIPCNN

namespace NAIPCNN

/-! ## C3 -/

/-- C3: for every acquisition, the input layer (`load_naip`) and the label
layer (`load_lidar`) carry the same coordinate reference, are reprojected at
scales 1 and 30 respectively (the 1:30 ratio), and apply the same validity
mask: wherever the mask rejects a pixel both layers are masked, and wherever
it keeps one the input layer carries the NAIP composite value and the label
layer the LiDAR value. -/
theorem C3_layers_aligned (acq : Acquisition) (naip : List NAIPImage)
    (inBounds : NAIPImage → Bool) (lidar : EEImage)
    (lcms : List ChangeSlice) :
    (acq.load_naip naip inBounds lcms).crs
        = (acq.load_lidar lidar lcms).crs ∧
    (acq.load_naip naip inBounds lcms).scale = 1 ∧
    (acq.load_lidar lidar lcms).scale = 30 ∧
    (∀ p, maskKeeps (acq.mask lcms).img p = false →
      (acq.load_naip naip inBounds lcms).img.pix p = none ∧
      (acq.load_lidar lidar lcms).img.pix p = none) ∧
    (∀ p, maskKeeps (acq.mask lcms).img p = true →
      (acq.load_naip naip inBounds lcms).img.pix p
          = (naip_composite acq naip inBounds).pix p ∧
      (acq.load_lidar lidar lcms).img.pix p = lidar.pix p) := by
  refine ⟨rfl, rfl, rfl, ?_, ?_⟩
  · intro p hp
    constructor <;>
      simp [Acquisition.load_naip, Acquisition.load_lidar, updateMask, hp]
  · intro p hp
    constructor <;>
      simp [Acquisition.load_naip, Acquisition.load_lidar, updateMask, hp]

/-- C3 witness: a disturbed window masks both layers at a pixel; a clean
window lets the LiDAR value through. -/
theorem C3_layers_aligned_witness :
    ((Acquisition.mk "A" "2017-01-01" "2018-01-01").load_naip []
      (fun _ => true)
      [⟨"CONUS", "2017-06-01", ⟨fun _ => some 3⟩⟩]).img.pix (0, 0) = none ∧
    ((Acquisition.mk "A" "2017-01-01" "2018-01-01").load_lidar
      ⟨fun _ => some 7⟩
      [⟨"CONUS", "2017-06-01", ⟨fun _ => some 3⟩⟩]).img.pix (0, 0) = none ∧
    ((Acquisition.mk "A" "2017-01-01" "2018-01-01").load_lidar
      ⟨fun _ => some 7⟩
      [⟨"CONUS", "2017-06-01", ⟨fun _ => some 0⟩⟩]).img.pix (0, 0)
        = some 7 := by
  refine ⟨?_, ?_, ?_⟩
  · exact ((C3_layers_aligned (Acquisition.mk "A" "2017-01-01" "2018-01-01")
      [] (fun _ => true) ⟨fun _ => some 7⟩
      [⟨"CONUS", "2017-06-01", ⟨fun _ => some 3⟩⟩]).2.2.2.1 (0, 0)
      (by decide)).1
  · exact ((C3_layers_aligned (Acquisition.mk "A" "2017-01-01" "2018-01-01")
      [] (fun _ => true) ⟨fun _ => some 7⟩
      [⟨"CONUS", "2017-06-01", ⟨fun _ => some 3⟩⟩]).2.2.2.1 (0, 0)
      (by decide)).2
  · exact ((C3_layers_aligned (Acquisition.mk "A" "2017-01-01" "2018-01-01")
      [] (fun _ => true) ⟨fun _ => some 7⟩
      [⟨"CONUS", "2017-06-01", ⟨fun _ => some 0⟩⟩]).2.2.2.2 (0, 0)
      (by decide)).2

/-! ## C7 -/

/-- C7 counterexample: constructing an `Acquisition` performs no validation,
so a value with `start_date > end_date` is constructed without complaint —
the date-ordering invariant is not enforced at construction. -/
theorem C7_construction_not_validated :
    dateLe (Acquisition.mk "X" "2020-01-01" "2019-01-01").start_date
      (Acquisition.mk "X" "2020-01-01" "2019-01-01").end_date = false := by
  decide

/-- C7 (amended): construction performs no validation at all; nonetheless
every acquisition actually present in the module's registry satisfies
`start_date <= end_date`. -/
theorem C7_registry_dates_ordered :
    ∀ a ∈ registryAcquisitions, dateLe a.start_date a.end_date = true := by
  decide

/-- C7 witness: the first registry entry. -/
theorem C7_registry_dates_ordered_witness :
    dateLe MAL2007.start_date MAL2007.end_date = true :=
  C7_registry_dates_ordered MAL2007 (by decide)

end NAIPCNN

namespace NAIPCNN

/-! ## Checkpoint lemmas -/

/-- If a value beats the best-so-far, so does anything smaller. -/
theorem improves_of_lt {best : Option ℚ} {l x : ℚ}
    (h : improves best l = true) (hx : x < l) : improves best x = true := by
  cases best with
  | none => rfl
  | some b =>
    simp only [improves, decide_eq_true_eq] at h ⊢
    exact lt_trans hx h

/-- Every checkpoint written carries an epoch at or after the running
counter and a loss that beat the best value seen before the run. -/
theorem savedAux_spec (losses : List ℚ) :
    ∀ (best : Option ℚ) (k : Nat),
      ∀ c ∈ savedCheckpointsAux best k losses,
        k ≤ c.1 ∧ improves best c.2 = true := by
  induction losses with
  | nil =>
    intro best k c hc
    simp [savedCheckpointsAux] at hc
  | cons l rest ih =>
    intro best k c hc
    by_cases himp : improves best l = true
    · rw [savedCheckpointsAux, if_pos himp] at hc
      rcases List.mem_cons.mp hc with rfl | hm
      · exact ⟨Nat.le_refl k, himp⟩
      · have hs := ih (some l) (k + 1) c hm
        have hlt : c.2 < l := by
          simpa only [improves, decide_eq_true_eq] using hs.2
        exact ⟨Nat.le_trans (Nat.le_succ k) hs.1, improves_of_lt himp hlt⟩
    · rw [savedCheckpointsAux, if_neg himp] at hc
      have hs := ih best (k + 1) c hc
      exact ⟨Nat.le_trans (Nat.le_succ k) hs.1, hs.2⟩

/-- The last checkpoint written has the smallest loss and the greatest
epoch ordinal among all checkpoints on disk. -/
theorem savedAux_getLast (losses : List ℚ) :
    ∀ (best : Option ℚ) (k : Nat),
      savedCheckpointsAux best k losses = [] ∨
      ∃ e lv, (savedCheckpointsAux best k losses).getLast? = some (e, lv) ∧
        ∀ c ∈ savedCheckpointsAux best k losses, lv ≤ c.2 ∧ c.1 ≤ e := by
  induction losses with
  | nil => intro best k; left; rfl
  | cons l rest ih =>
    intro best k
    by_cases himp : improves best l = true
    · right
      have heq : savedCheckpointsAux best k (l :: rest)
          = (k, l) :: savedCheckpointsAux (some l) (k + 1) rest := by
        rw [savedCheckpointsAux, if_pos himp]
      rcases ih (some l) (k + 1) with htail | ⟨e, lv, hlast, hbound⟩
      · refine ⟨k, l, ?_, ?_⟩
        · rw [heq, htail]; rfl
        · intro c hc
          rw [heq, htail] at hc
          rcases List.mem_singleton.mp hc with rfl
          exact ⟨le_refl l, Nat.le_refl k⟩
      · have hmem := List.mem_of_getLast?_eq_some hlast
        have hspec := savedAux_spec rest (some l) (k + 1) (e, lv) hmem
        have hlvl : lv < l := by
          simpa only [improves, decide_eq_true_eq] using hspec.2
        refine ⟨e, lv, ?_, ?_⟩
        · rw [heq]
          cases htl : savedCheckpointsAux (some l) (k + 1) rest with
          | nil => rw [htl] at hlast; exact absurd hlast (by simp)
          | cons y t =>
            rw [htl] at hlast
            rw [List.getLast?_cons_cons]
            exact hlast
        · intro c hc
          rw [heq] at hc
          rcases List.mem_cons.mp hc with rfl | hm
          · exact ⟨le_of_lt hlvl, Nat.le_trans (Nat.le_succ k) hspec.1⟩
          · exact hbound c hm
    · have heq : savedCheckpointsAux best k (l :: rest)
          = savedCheckpointsAux best (k + 1) rest := by
        rw [savedCheckpointsAux, if_neg himp]
      rw [heq]
      exact ih best (k + 1)

/-- Folding the greatest-ordinal selection over the checkpoint list picks
the last checkpoint written (whose ordinal dominates), falling back to the
accumulator on an empty list. -/
theorem savedAux_fold (losses : List ℚ) :
    ∀ (best : Option ℚ) (k : Nat) (acc : Option (Nat × ℚ)),
      (∀ a, acc = some a → a.1 < k) →
      (savedCheckpointsAux best k losses).foldl bestOrdinalStep acc
        = match (savedCheckpointsAux best k losses).getLast? with
          | some c => some c
          | none => acc := by
  induction losses with
  | nil => intro best k acc _; rfl
  | cons l rest ih =>
    intro best k acc hacc
    by_cases himp : improves best l = true
    · have heq : savedCheckpointsAux best k (l :: rest)
          = (k, l) :: savedCheckpointsAux (some l) (k + 1) rest := by
        rw [savedCheckpointsAux, if_pos himp]
      rw [heq]
      have hstep : bestOrdinalStep acc (k, l) = some (k, l) := by
        cases hc : acc with
        | none => rfl
        | some a =>
          have := hacc a hc
          simp [bestOrdinalStep, Nat.le_of_lt this]
      rw [List.foldl_cons, hstep]
      have := ih (some l) (k + 1) (some (k, l))
        (by intro a ha; rcases Option.some.inj ha with rfl; exact Nat.lt_succ_self k)
      rw [this]
      cases htl : savedCheckpointsAux (some l) (k + 1) rest with
      | nil => rfl
      | cons y t =>
        rw [List.getLast?_cons_cons]
        obtain ⟨z, hz⟩ := Option.isSome_iff_exists.mp
          (List.getLast?_isSome.mpr (List.cons_ne_nil y t))
        rw [hz]
    · have heq : savedCheckpointsAux best k (l :: rest)
          = savedCheckpointsAux best (k + 1) rest := by
        rw [savedCheckpointsAux, if_neg himp]
      rw [heq]
      exact ih best (k + 1) acc
        (fun a ha => Nat.lt_trans (hacc a ha) (Nat.lt_succ_self k))

end NAIPCNN

namespace NAIPCNN

/-! ## C4 -/

/-- C4: after fitting ends in any terminal state, the checkpoint whose
weights are restored into the live model is an actual checkpoint on disk,
its recorded validation loss is the numerically lowest among all saved
checkpoints (and its epoch ordinal the greatest), and
`TrainingResult.best_epoch` is exactly that checkpoint's epoch ordinal. -/
theorem C4_best_checkpoint_restored (losses : List ℚ) (outcome : FitOutcome)
    (h : losses ≠ []) :
    ∃ e lv, (train_model losses outcome).model_run = some (e, lv) ∧
      (train_model losses outcome).best_epoch = some e ∧
      (e, lv) ∈ savedCheckpoints losses ∧
      ∀ c ∈ savedCheckpoints losses, lv ≤ c.2 ∧ c.1 ≤ e := by
  obtain ⟨l, rest, rfl⟩ := List.exists_cons_of_ne_nil h
  have hne : savedCheckpoints (l :: rest)
      = savedCheckpointsAux none 1 (l :: rest) := rfl
  rcases savedAux_getLast (l :: rest) none 1 with h0 | ⟨e, lv, hlast, hbound⟩
  · exfalso
    rw [savedCheckpointsAux, if_pos (by rfl)] at h0
    exact List.cons_ne_nil _ _ h0
  · have hfold : load_best_checkpoint (savedCheckpoints (l :: rest))
        = some (e, lv) := by
      have hf := savedAux_fold (l :: rest) none 1 none (by intro a ha; cases ha)
      rw [load_best_checkpoint]
      show (savedCheckpointsAux none 1 (l :: rest)).foldl bestOrdinalStep none
        = some (e, lv)
      rw [hf, hlast]
    refine ⟨e, lv, ?_, ?_, List.mem_of_getLast?_eq_some hlast, hbound⟩
    · cases outcome <;> simp [train_model, fitRun, hfold]
    · cases outcome <;> simp [train_model, fitRun, hfold]

/-- C4 witness: losses 3, 2, 5 save checkpoints at epochs 1 and 2; the
restored checkpoint is epoch 2 with loss 2, the minimum. -/
theorem C4_best_checkpoint_restored_witness :
    ∃ e lv,
      (train_model [3, 2, 5] (FitOutcome.completed 3)).model_run
        = some (e, lv) ∧
      (train_model [3, 2, 5] (FitOutcome.completed 3)).best_epoch = some e ∧
      (e, lv) ∈ savedCheckpoints [3, 2, 5] ∧
      ∀ c ∈ savedCheckpoints [3, 2, 5], lv ≤ c.2 ∧ c.1 ≤ e :=
  C4_best_checkpoint_restored [3, 2, 5] (FitOutcome.completed 3)
    (List.cons_ne_nil _ _)

/-! ## C5 -/

/-- C5: a manual interruption at epoch `K` (below the configured maximum)
surfaces from the fit call as an exception, is caught by `train_model`
(which returns a result rather than propagating), the result reports
`stopped_epoch = K` and `interrupted = true`, the `train` command still
performs evaluation and publishes the summary, and no completion alert is
emitted. -/
theorem C5_interrupt_caught (losses : List ℚ) (K maxEpochs : Nat)
    (_hK : K < maxEpochs) :
    fitRun (FitOutcome.interruptedAt K) = Except.error K ∧
    (train_model losses (FitOutcome.interruptedAt K)).stopped_epoch = K ∧
    (train_model losses (FitOutcome.interruptedAt K)).interrupted = true ∧
    Action.evaluate
      ∈ trainSteps (train_model losses (FitOutcome.interruptedAt K)) ∧
    Action.publishSummary
      ∈ trainSteps (train_model losses (FitOutcome.interruptedAt K)) ∧
    Action.alert
      ∉ trainSteps (train_model losses (FitOutcome.interruptedAt K)) := by
  refine ⟨rfl, rfl, rfl, ?_, ?_, ?_⟩ <;>
    simp [trainSteps, train_model, fitRun]

/-- C5 witness: interruption at epoch 3 of a 10-epoch budget. -/
theorem C5_interrupt_caught_witness :
    fitRun (FitOutcome.interruptedAt 3) = Except.error 3 ∧
    (train_model [1] (FitOutcome.interruptedAt 3)).stopped_epoch = 3 ∧
    (train_model [1] (FitOutcome.interruptedAt 3)).interrupted = true ∧
    Action.evaluate
      ∈ trainSteps (train_model [1] (FitOutcome.interruptedAt 3)) ∧
    Action.publishSummary
      ∈ trainSteps (train_model [1] (FitOutcome.interruptedAt 3)) ∧
    Action.alert
      ∉ trainSteps (train_model [1] (FitOutcome.interruptedAt 3)) :=
  C5_interrupt_caught [1] 3 10 (by decide)

end NAIPCNN

namespace NAIPCNN

/-! ## Evaluation lemmas -/

/-- A list is a `isPrefixOf`-prefix of itself followed by anything. -/
theorem list_isPrefixOf_append (l m : List Char) :
    List.isPrefixOf l (l ++ m) = true := by
  induction l with
  | nil => simp
  | cons c cs ih => simp [List.isPrefixOf_cons₂, ih]

/-- String version, on the character data. -/
theorem data_isPrefixOf_append (a b : String) :
    List.isPrefixOf a.data (a ++ b).data = true := by
  rw [String.data_append]
  exact list_isPrefixOf_append a.data b.data

/-- The residual sum of squares of a list against itself vanishes. -/
theorem ssRes_self (y : List ℚ) : ssRes y y = 0 := by
  induction y with
  | nil => simp [ssRes]
  | cons a as ih =>
    simp only [ssRes, List.zipWith_cons_cons, List.sum_cons] at ih ⊢
    rw [ih, sub_self]
    ring

/-- `r2_score` of a list against itself is exactly 1 whenever at least two
values are present. -/
theorem r2_score_self (y : List ℚ) (h2 : 2 ≤ y.length) :
    r2_score y y = Except.ok (some 1) := by
  unfold r2_score
  rw [if_neg (by simp), if_neg (by omega)]
  by_cases hden : ssTot y = 0
  · rw [if_pos hden, if_pos (ssRes_self y)]
  · rw [if_neg hden, ssRes_self, zero_div, sub_zero]

/-- The concatenated labels over equally-sized batches count
`batches * size` samples. -/
theorem y_true_samples_length (val : List Batch) (n : Nat)
    (h : ∀ b ∈ val, b.length = n) :
    (y_true_samples val).length = val.length * n := by
  induction val with
  | nil => simp [y_true_samples]
  | cons b bs ih =>
    have hb := h b (List.mem_cons_self b bs)
    have ih' := ih (fun x hx => h x (List.mem_cons_of_mem _ hx))
    simp only [y_true_samples, List.map_cons, List.flatten_cons,
      List.length_append, List.length_map] at ih' ⊢
    rw [hb, ih', List.length_cons, Nat.succ_mul]
    omega

end NAIPCNN

namespace NAIPCNN

/-! ## C6 -/

/-- C6 counterexample: at a concrete completed run, the summary actually
published to the tracking service contains a key without the `final/`
namespace — the `interrupted` flag the orchestrator appends after
`evaluate_model` returns. -/
theorem C6_unprefixed_key_published :
    (train_published_summary ⟨some (2, 2), some 2, 5, false⟩ (fun x => x)
        [[([0], [0])]] ["loss", "mae", "mse"] [0, 0, 0]).toOption.map
      (fun l => l.all (fun kv => List.isPrefixOf "final/".data kv.1.data))
      = some false ∧
    (train_published_summary ⟨some (2, 2), some 2, 5, false⟩ (fun x => x)
        [[([0], [0])]] ["loss", "mae", "mse"] [0, 0, 0]).toOption.map
      (fun l => l.any (fun kv => kv.1 == "interrupted"
        && !(List.isPrefixOf "final/".data kv.1.data))) = some true := by
  constructor <;> decide

/-- C6 (amended): every metric key produced by `evaluate_model` is
namespaced under `final/`; the published summary consists of those keys
plus the single unprefixed key `interrupted`. -/
theorem C6_published_keys_final (tr : TrainingResult)
    (predict : List ℚ → List ℚ) (val : List Batch)
    (metricsNames : List String) (metricVals : List ℚ)
    (l : List (String × SummaryVal))
    (h : train_published_summary tr predict val metricsNames metricVals
      = Except.ok l) :
    ∀ kv ∈ l, kv.1 = "interrupted"
      ∨ List.isPrefixOf "final/".data kv.1.data = true := by
  rw [train_published_summary] at h
  cases he : evaluate_model tr predict val metricsNames metricVals with
  | error e => rw [he] at h; exact absurd h (by simp [Except.map])
  | ok s =>
    rw [he] at h
    simp only [Except.map] at h
    rcases Except.ok.inj h with rfl
    have hs : ∀ kv ∈ s, List.isPrefixOf "final/".data kv.1.data = true := by
      rw [evaluate_model] at he
      cases hr : evaluate_r2 predict val with
      | error e => rw [hr] at he; exact absurd he (by simp [Except.bind])
      | ok r2 =>
        rw [hr] at he
        simp only [Except.bind, pure, Except.pure] at he
        rcases Except.ok.inj he with rfl
        intro kv hkv
        rcases List.mem_map.mp hkv with ⟨kv0, _, rfl⟩
        exact data_isPrefixOf_append "final/" kv0.1
    intro kv hkv
    rcases List.mem_append.mp hkv with hm | hm
    · exact Or.inr (hs kv hm)
    · rcases List.mem_singleton.mp hm with rfl
      exact Or.inl rfl

/-- C6 witness: the `final/r2_score` key of the concrete published summary
satisfies the amended property. -/
theorem C6_published_keys_final_witness :
    ("final/r2_score" : String) = "interrupted"
      ∨ List.isPrefixOf "final/".data ("final/r2_score" : String).data
          = true :=
  C6_published_keys_final ⟨some (2, 2), some 2, 5, false⟩ (fun x => x)
    [[([0], [0])]] ["loss", "mae", "mse"] [0, 0, 0]
    [("final/best_epoch", SummaryVal.epoch (some 2)),
     ("final/stopped_epoch", SummaryVal.epoch (some 5)),
     ("final/r2_score", SummaryVal.score none),
     ("final/loss", SummaryVal.num 0),
     ("final/mae", SummaryVal.num 0),
     ("final/mse", SummaryVal.num 0),
     ("interrupted", SummaryVal.flag false)]
    rfl
    ("final/r2_score", SummaryVal.score none)
    (by decide)

end NAIPCNN

namespace NAIPCNN

/-! ## C8 -/

/-- C8: over a validation pipeline of 4 batches of 8 samples,
`evaluate_model` concatenates exactly 32 true-label samples; and whenever
the flattened true and predicted arrays disagree in length, `r2_score`
raises (returns the sklearn consistency error) instead of truncating. -/
theorem C8_concat_count_and_mismatch_raises (val : List Batch)
    (h4 : val.length = 4) (h8 : ∀ b ∈ val, b.length = 8) :
    (y_true_samples val).length = 32 ∧
    ∀ yt yp : List ℚ, yt.length ≠ yp.length →
      r2_score yt yp
        = Except.error
            "Found input variables with inconsistent numbers of samples" := by
  constructor
  · rw [y_true_samples_length val 8 h8, h4]
  · intro yt yp hne
    rw [r2_score, if_pos hne]

/-- C8 witness: 4 literal batches of 8 trivial samples give 32 labels, and
a 1-versus-0 length mismatch errors. -/
theorem C8_concat_count_witness :
    (y_true_samples
      (List.replicate 4 (List.replicate 8 (([0], [0]) : Sample)))).length
        = 32 ∧
    r2_score [0] []
      = Except.error
          "Found input variables with inconsistent numbers of samples" := by
  have h := C8_concat_count_and_mismatch_raises
    (List.replicate 4 (List.replicate 8 (([0], [0]) : Sample)))
    (by simp)
    (by
      intro b hb
      rw [List.eq_of_mem_replicate hb]
      simp)
  exact ⟨h.1, h.2 [0] [] (by decide)⟩

/-! ## C9 -/

/-- C9 counterexample: a non-empty validation set with a single one-pixel
label, where the prediction equals the label exactly, yields R² = NaN
(sklearn's under-two-samples case), not 1.0. -/
theorem C9_single_sample_not_one :
    y_true_samples [[([1], [5])]] ≠ [] ∧
    ravel (y_pred_samples (fun _ => [5]) [[([1], [5])]])
      = ravel (y_true_samples [[([1], [5])]]) ∧
    evaluate_r2 (fun _ => [5]) [[([1], [5])]] = Except.ok none ∧
    (Except.ok none : Except String (Option ℚ)) ≠ Except.ok (some 1) := by
  refine ⟨by simp [y_true_samples], rfl, rfl, by simp⟩

/-- C9 (amended): whenever the flattened true labels contain at least two
values and the flattened predictions equal them exactly, the R² computed by
`evaluate_model` is exactly 1. -/
theorem C9_perfect_predictions_r2_one (val : List Batch)
    (predict : List ℚ → List ℚ)
    (h2 : 2 ≤ (ravel (y_true_samples val)).length)
    (hp : ravel (y_pred_samples predict val) = ravel (y_true_samples val)) :
    evaluate_r2 predict val = Except.ok (some 1) := by
  rw [evaluate_r2, hp]
  exact r2_score_self _ h2

/-- C9 witness: two samples predicted exactly give R² = 1. -/
theorem C9_perfect_predictions_witness :
    evaluate_r2 (fun x => x) [[([1], [1]), ([2], [2])]]
      = Except.ok (some 1) :=
  C9_perfect_predictions_r2_one [[([1], [1]), ([2], [2])]] (fun x => x)
    (by decide) rfl

/-! ## C10 -/

/-- C10: the validation pipeline is deterministic — it is independent of
the shuffling random state and of the augmenter (neither op occurs in it),
so two passes yield the same batches in the same order; consequently the
i-th concatenated true label and the i-th prediction in `evaluate_model`
both come from the i-th validation sample. -/
theorem C10_val_pipeline_deterministic (data : List Sample) (batchSize : Nat)
    (rand₁ rand₂ : List Sample → List Sample) (aug₁ aug₂ : Sample → Sample)
    (predict : List ℚ → List ℚ) (i : Nat) :
    val_pipeline rand₁ aug₁ batchSize data
      = val_pipeline rand₂ aug₂ batchSize data ∧
    (y_true_samples (val_pipeline rand₁ aug₁ batchSize data))[i]?
      = ((val_pipeline rand₁ aug₁ batchSize data).flatten[i]?).map
          (fun s => s.2) ∧
    (y_pred_samples predict (val_pipeline rand₁ aug₁ batchSize data))[i]?
      = ((val_pipeline rand₁ aug₁ batchSize data).flatten[i]?).map
          (fun s => predict s.1) := by
  refine ⟨rfl, ?_, ?_⟩
  · rw [y_true_samples, ← List.map_flatten, List.getElem?_map]
  · rw [y_pred_samples, ← List.map_flatten, List.getElem?_map]

end NAIPCNN
